import Mathlib

/-!
Shallow embedding of the Study-Buddy backend's voting subsystem
(`Backend/views/vote.py`) and submission gate (`Backend/views/submission.py`)
over the relational schema of `Backend/models.py`.

The relational store is modelled as lists of records.  SQLAlchemy's
`filter_by(...).first()` is `List.find?`, `filter_by(...).count()` is the
length of `List.filter`, `db.session.delete(row)` on the row returned by
`first()` is `List.eraseP` with the same predicate, in-place mutation of that
row followed by `commit()` is `modifyFirst`, and `db.session.add` is an
append.  Python truthiness is modelled explicitly where the code relies on it
(`if not user_id`, `if question_id:`, `if not content and not file`).
-/

namespace StudyBuddy

/-- A row of the `votes` table.  The surrogate `id` primary key is never read
by the handlers, so it is not modelled; row identity is positional. -/
structure Vote where
  user_id : Nat
  answer_id : Nat
  vote_type : String
deriving Repr, DecidableEq

/-- A row of the `answers` table (the fields the vote handlers read). -/
structure Answer where
  id : Nat
  question_id : Int
  author_id : Nat
  body : String
deriving Repr, DecidableEq

/-- The slice of the relational store that the vote handlers touch: user ids,
answer rows and vote rows. -/
structure VoteStore where
  users : List Nat
  answers : List Answer
  votes : List Vote
deriving Repr, DecidableEq

/-- Outcomes of the vote endpoints, one per distinct HTTP response of
`vote_answer` / `remove_vote`. -/
inductive VoteOutcome where
  | badRequest      -- 400: user_id / vote_type missing (Python falsy)
  | invalidVoteType -- 400: vote_type outside {"up","down"}
  | answerNotFound  -- 404
  | userNotFound    -- 404
  | created         -- 201: new vote added
  | removed         -- 200: same vote_type again, vote deleted (toggle-off)
  | switched        -- 200: vote_type overwritten in place
  | noVoteFound     -- 404 from remove_vote
  | deleted         -- 200 from remove_vote
deriving Repr, DecidableEq

/-- Replace the first list element satisfying `p` by its image under `f`
(models an in-place SQLAlchemy row mutation followed by `commit`). -/
def modifyFirst (p : Vote → Bool) (f : Vote → Vote) : List Vote → List Vote
  | [] => []
  | v :: vs => if p v then f v :: vs else v :: modifyFirst p f vs

/-- The row predicate `filter_by(user_id=..., answer_id=...)` used by
`vote_answer` and `remove_vote`. -/
def pairP (user_id answer_id : Nat) (v : Vote) : Bool :=
  v.user_id == user_id && v.answer_id == answer_id

/-- The vote list after `existing_vote.vote_type = vote_type; commit()`: the
first row for the pair has its vote_type overwritten in place. -/
def switchVotes (user_id answer_id : Nat) (vote_type : String) (l : List Vote) : List Vote :=
  modifyFirst (pairP user_id answer_id) (fun w => { w with vote_type := vote_type }) l

/-- `vote_answer` (POST /votes/<answer_id>), lines 10-45 of vote.py:
validation, then create / toggle-off / switch on the existing vote for the
(user, answer) pair.  `user_id = 0` and `vote_type = ""` model the Python-falsy
inputs rejected by `not all([user_id, vote_type])`. -/
def vote_answer (st : VoteStore) (answer_id user_id : Nat) (vote_type : String) :
    VoteOutcome × VoteStore :=
  if user_id == 0 || vote_type == "" then (.badRequest, st)
  else if !(["up", "down"].contains vote_type) then (.invalidVoteType, st)
  else if (st.answers.find? (fun an => an.id == answer_id)).isNone then (.answerNotFound, st)
  else if !(st.users.contains user_id) then (.userNotFound, st)
  else
    match st.votes.find? (pairP user_id answer_id) with
    | none =>
        (.created, { st with votes := st.votes ++ [⟨user_id, answer_id, vote_type⟩] })
    | some v =>
        if v.vote_type == vote_type then
          (.removed, { st with votes := st.votes.eraseP (pairP user_id answer_id) })
        else
          (.switched, { st with votes := switchVotes user_id answer_id vote_type st.votes })

/-- `remove_vote` (DELETE /votes/<answer_id>), lines 72-85 of vote.py. -/
def remove_vote (st : VoteStore) (answer_id user_id : Nat) :
    VoteOutcome × VoteStore :=
  if user_id == 0 then (.badRequest, st)
  else
    match st.votes.find? (pairP user_id answer_id) with
    | none => (.noVoteFound, st)
    | some _ => (.deleted, { st with votes := st.votes.eraseP (pairP user_id answer_id) })

/-- The JSON payload of `get_votes`. -/
structure VoteTallyResult where
  answer_id : Nat
  upvotes : Nat
  downvotes : Nat
  total_score : Int
deriving Repr, DecidableEq

/-- `get_votes` (GET /votes/<answer_id>), lines 52-65 of vote.py.  A pure
read: it takes the store and returns only a result, no updated store. -/
def get_votes (st : VoteStore) (answer_id : Nat) : Except String VoteTallyResult :=
  if (st.answers.find? (fun an => an.id == answer_id)).isNone then
    .error "Answer not found"
  else
    let up := (st.votes.filter (fun v => v.answer_id == answer_id && v.vote_type == "up")).length
    let down := (st.votes.filter (fun v => v.answer_id == answer_id && v.vote_type == "down")).length
    .ok ⟨answer_id, up, down, (up : Int) - (down : Int)⟩

/-- One element of the `answers` array returned by `get_top_answers`. -/
structure RankEntry where
  answer_id : Nat
  question_id : Int
  author_id : Nat
  body : String
  upvotes : Nat
  downvotes : Nat
  score : Int
deriving Repr, DecidableEq

/-- The per-answer tally computed inside the `get_top_answers` loop. -/
def entryOf (st : VoteStore) (a : Answer) : RankEntry :=
  let up := (st.votes.filter (fun v => v.answer_id == a.id && v.vote_type == "up")).length
  let down := (st.votes.filter (fun v => v.answer_id == a.id && v.vote_type == "down")).length
  ⟨a.id, a.question_id, a.author_id, a.body, up, down, (up : Int) - (down : Int)⟩

/-- Stable insertion into a descending-by-score list: the new element goes
before the first element whose score is not larger.  `insertByScore` and
`sortByScore` together model Python's stable
`sorted(data, key=lambda x: x["score"], reverse=True)`. -/
def insertByScore (x : RankEntry) : List RankEntry → List RankEntry
  | [] => [x]
  | y :: ys => if x.score < y.score then y :: insertByScore x ys else x :: y :: ys

/-- Stable descending sort by score (see `insertByScore`). -/
def sortByScore : List RankEntry → List RankEntry
  | [] => []
  | x :: xs => insertByScore x (sortByScore xs)

/-- The candidate answers of `get_top_answers`: `query = Answer.query;
if question_id: query = query.filter_by(question_id=question_id)`.
`question_id` is `request.args.get("question_id", type=int)`, so it is `none`
when absent or unparsable, and `if question_id:` is also false for the
integer 0. -/
def topAnswerCandidates (st : VoteStore) (question_id : Option Int) : List Answer :=
  match question_id with
  | none => st.answers
  | some q => if q == 0 then st.answers else st.answers.filter (fun a => a.question_id == q)

/-- `get_top_answers` (GET /votes/top-answers), lines 92-128 of vote.py:
tally every candidate answer, sort by score descending, return the count and
the ordered list. -/
def get_top_answers (st : VoteStore) (question_id : Option Int) :
    Nat × List RankEntry :=
  let data := (topAnswerCandidates st question_id).map (entryOf st)
  let sorted := sortByScore data
  (sorted.length, sorted)

/-! ## Submission gate (`Backend/views/submission.py`) -/

/-- A row of the `assignments` table (the fields `submit_assignment` reads).
`due_date` is a nullable timestamp, modelled as `Option Int` in seconds. -/
structure Assignment where
  id : Nat
  is_active : Bool
  due_date : Option Int
deriving Repr, DecidableEq

/-- A row of the `submissions` table as created by `submit_assignment`. -/
structure SubmissionRec where
  student_id : Nat
  assignment_id : Nat
  content : Option String
  file_path : Option String
deriving Repr, DecidableEq

/-- The slice of the relational store that `submit_assignment` touches. -/
structure SubStore where
  assignments : List Assignment
  users : List Nat
  submissions : List SubmissionRec
deriving Repr, DecidableEq

/-- The error responses of `submit_assignment`, in source order. -/
inductive SubmitError where
  | ASSIGNMENT_NOT_FOUND   -- 404 "Assignment not found"
  | ASSIGNMENT_INACTIVE    -- 400 "Assignment is not active"
  | DUE_DATE_MISSING       -- 400 "Assignment due_date not set"
  | PAST_DEADLINE          -- 400 "Submission deadline has passed"
  | STUDENT_NOT_FOUND      -- 404 "Student not found"
  | ATTEMPT_LIMIT_REACHED  -- 400 "maximum of 3 submission attempts"
  | EMPTY_SUBMISSION       -- 400 "must submit either text content or a file"
  | INVALID_FILE_TYPE      -- 400 "Invalid file type"
deriving Repr, DecidableEq

/-- Python truthiness of `content = request.form.get("content")`: absent
(`None`) or the empty string are falsy. -/
def contentPresent : Option String → Bool
  | none => false
  | some s => !(s == "")

/-- Python truthiness of `file = request.files.get("file")`: absent is falsy,
and a `FileStorage` is falsy exactly when its filename is empty. -/
def filePresent : Option String → Bool
  | none => false
  | some fn => !(fn == "")

/-- Python's `str.split(".")` on a character list: always returns at least one
(possibly empty) segment. -/
def splitOnDot : List Char → List (List Char)
  | [] => [[]]
  | c :: cs =>
      match splitOnDot cs with
      | [] => [[]]
      | seg :: rest =>
          if c == '.' then [] :: seg :: rest else (c :: seg) :: rest

/-- `file.filename.split(".")[-1].lower()`: the lowercased segment after the
last dot of the filename (the whole lowercased filename when it has no dot). -/
def extOf (filename : String) : String :=
  String.mk (((splitOnDot filename.data).getLastD []).map Char.toLower)

/-- `allowed_ext = {"pdf", "docx", "jpg", "jpeg", "png"}`. -/
def allowed_ext : List String := ["pdf", "docx", "jpg", "jpeg", "png"]

/-- The attempt count
`Submission.query.filter_by(student_id=..., assignment_id=...).count()`. -/
def attemptCount (st : SubStore) (student_id assignment_id : Nat) : Nat :=
  (st.submissions.filter
    (fun s => s.student_id == student_id && s.assignment_id == assignment_id)).length

/-- The `file_path` stored on a successful upload:
`uploads/submissions/student{sid}_assignment{aid}_attempt{n}_{filename}`. -/
def uploadPath (student_id assignment_id attempt : Nat) (filename : String) : String :=
  "uploads/submissions/student" ++ toString student_id ++
    "_assignment" ++ toString assignment_id ++
    "_attempt" ++ toString attempt ++ "_" ++ filename

/-- The successful tail of `submit_assignment`: build the Submission row
(`db.session.add`, `commit`) and return it. -/
def mkSuccess (st : SubStore) (student_id assignment_id : Nat)
    (content file_path : Option String) : Except SubmitError SubmissionRec × SubStore :=
  (.ok ⟨student_id, assignment_id, content, file_path⟩,
    { st with submissions := st.submissions ++ [⟨student_id, assignment_id, content, file_path⟩] })

/-- `submit_assignment` (POST /submissions), lines 14-80 of submission.py.
`student_id` and `assignment_id` are the (present) form fields; `content` is
the optional text field; `file` is the optional uploaded file, represented by
its filename (`if file:` is Python-falsy for an empty filename); `now` is
`datetime.utcnow()`.  Returns the created row or the first failing check's
error, together with the updated store. -/
def submit_assignment (st : SubStore) (student_id assignment_id : Nat)
    (content file : Option String) (now : Int) :
    Except SubmitError SubmissionRec × SubStore :=
  match st.assignments.find? (fun a => a.id == assignment_id) with
  | none => (.error .ASSIGNMENT_NOT_FOUND, st)
  | some assignment =>
    if !assignment.is_active then (.error .ASSIGNMENT_INACTIVE, st)
    else
      match assignment.due_date with
      | none => (.error .DUE_DATE_MISSING, st)
      | some due =>
        if due < now then (.error .PAST_DEADLINE, st)
        else if !(st.users.contains student_id) then (.error .STUDENT_NOT_FOUND, st)
        else if attemptCount st student_id assignment_id ≥ 3 then
          (.error .ATTEMPT_LIMIT_REACHED, st)
        else if !contentPresent content && !filePresent file then
          (.error .EMPTY_SUBMISSION, st)
        else
          match file with
          | none => mkSuccess st student_id assignment_id content none
          | some fn =>
              if fn == "" then mkSuccess st student_id assignment_id content none
              else if !(allowed_ext.contains (extOf fn)) then
                (.error .INVALID_FILE_TYPE, st)
              else
                mkSuccess st student_id assignment_id content
                  (some (uploadPath student_id assignment_id
                    (attemptCount st student_id assignment_id + 1) fn))

/-- The error component of a `submit_assignment` result. -/
def errOf : Except SubmitError SubmissionRec → Option SubmitError
  | .error e => some e
  | .ok _ => none

/-- The spec's ordered precondition pipeline, written from the claim's words:
(1) assignment exists, (2) assignment is active, (3) assignment has a due
date, (4) now is at or before the due date, (5) student exists, (6) prior
attempt count is below 3, (7) content or file is present, (8) any present
file has an allowed extension; the first failing check determines the error
and `none` means every check passed. -/
def gateSpec (st : SubStore) (student_id assignment_id : Nat)
    (content file : Option String) (now : Int) : Option SubmitError :=
  match st.assignments.find? (fun a => a.id == assignment_id) with
  | none => some .ASSIGNMENT_NOT_FOUND
  | some assignment =>
    if assignment.is_active = false then some .ASSIGNMENT_INACTIVE
    else
      match assignment.due_date with
      | none => some .DUE_DATE_MISSING
      | some due =>
        if ¬ (now ≤ due) then some .PAST_DEADLINE
        else if ¬ (st.users.contains student_id = true) then some .STUDENT_NOT_FOUND
        else if ¬ (attemptCount st student_id assignment_id < 3) then
          some .ATTEMPT_LIMIT_REACHED
        else if ¬ (contentPresent content = true ∨ filePresent file = true) then
          some .EMPTY_SUBMISSION
        else if filePresent file = true ∧ ¬ (allowed_ext.contains (extOf (file.getD "")) = true) then
          some .INVALID_FILE_TYPE
        else none

/-- The file_path that a fully successful `submit_assignment` stores: `None`
without a (truthy) file, the upload path with one. -/
def successPath (st : SubStore) (student_id assignment_id : Nat)
    (file : Option String) : Option String :=
  match file with
  | none => none
  | some fn =>
      if fn == "" then none
      else some (uploadPath student_id assignment_id
        (attemptCount st student_id assignment_id + 1) fn)

/-- The arguments of one `submit_assignment` request. -/
structure SubmitCall where
  student_id : Nat
  assignment_id : Nat
  content : Option String
  file : Option String
  now : Int
deriving Repr, DecidableEq

/-- Run a sequence of `submit_assignment` requests, threading the store. -/
def runSubmitCalls (st : SubStore) (calls : List SubmitCall) : SubStore :=
  calls.foldl
    (fun s c => (submit_assignment s c.student_id c.assignment_id c.content c.file c.now).2) st

/-! ## Vote event sequences and the abstract per-pair vote state -/

/-- One request against the vote endpoints that can change the store. -/
inductive VoteEvent where
  | cast (user_id answer_id : Nat) (vote_type : String)
  | rem (user_id answer_id : Nat)
deriving Repr, DecidableEq

/-- The store after one vote request. -/
def applyVoteEvent (st : VoteStore) : VoteEvent → VoteStore
  | .cast u a t => (vote_answer st a u t).2
  | .rem u a => (remove_vote st a u).2

/-- Run a sequence of vote requests, threading the store. -/
def runVoteEvents (st : VoteStore) (events : List VoteEvent) : VoteStore :=
  events.foldl applyVoteEvent st

/-- The vote rows stored for one (user, answer) pair. -/
def votesFor (st : VoteStore) (user_id answer_id : Nat) : List Vote :=
  st.votes.filter (pairP user_id answer_id)

/-- The abstract state of one (user, answer) pair: the stored vote_type, if a
vote row exists. -/
def pairState (st : VoteStore) (user_id answer_id : Nat) : Option String :=
  (votesFor st user_id answer_id).head?.map Vote.vote_type

/-- The abstract transition of one (user, answer) pair under one request:
events for other pairs and requests that fail validation leave the state
unchanged; a valid cast creates / toggles off / switches the vote; a remove
clears it.  `answers` and `users` are the (vote-request-invariant) other
tables, consulted by `vote_answer`'s validation. -/
def absStep (answers : List Answer) (users : List Nat) (user_id answer_id : Nat)
    (s : Option String) : VoteEvent → Option String
  | .cast u a t =>
      if u == user_id && a == answer_id then
        if u == 0 || t == "" then s
        else if !(["up", "down"].contains t) then s
        else if (answers.find? (fun an => an.id == a)).isNone then s
        else if !(users.contains u) then s
        else
          match s with
          | none => some t
          | some t' => if t' = t then none else some t
      else s
  | .rem u a =>
      if u == user_id && a == answer_id then
        if u == 0 then s else none
      else s

/-- The abstract pair state after a sequence of requests. -/
def absRun (answers : List Answer) (users : List Nat) (user_id answer_id : Nat)
    (s : Option String) (events : List VoteEvent) : Option String :=
  events.foldl (absStep answers users user_id answer_id) s

/-- The vote rows a pair in abstract state `s` owns: none, or exactly one row
with the stored vote_type. -/
def pairRows (user_id answer_id : Nat) : Option String → List Vote
  | none => []
  | some t => [⟨user_id, answer_id, t⟩]

/-! ## Helper lemmas -/

theorem modifyFirst_length (p : Vote → Bool) (f : Vote → Vote) (l : List Vote) :
    (modifyFirst p f l).length = l.length := by
  induction l with
  | nil => rfl
  | cons v vs ih =>
      by_cases h : p v <;> simp [modifyFirst, h, ih]

theorem find?_eq_head?_filter (p : Vote → Bool) (l : List Vote) :
    l.find? p = (l.filter p).head? := by
  induction l with
  | nil => rfl
  | cons v vs ih =>
      by_cases h : p v
      · rw [List.find?_cons_of_pos _ h, List.filter_cons_of_pos h, List.head?_cons]
      · rw [List.find?_cons_of_neg _ h, List.filter_cons_of_neg h, ih]

theorem filter_eraseP_disjoint (p q : Vote → Bool) (l : List Vote)
    (h : ∀ x, q x = true → p x = false) :
    (l.eraseP q).filter p = l.filter p := by
  induction l with
  | nil => rfl
  | cons v vs ih =>
      by_cases hq : q v
      · rw [List.eraseP_cons_of_pos hq, List.filter_cons_of_neg (by simp [h v hq])]
      · by_cases hp : p v
        · rw [List.eraseP_cons_of_neg hq, List.filter_cons_of_pos hp,
            List.filter_cons_of_pos hp, ih]
        · rw [List.eraseP_cons_of_neg hq, List.filter_cons_of_neg hp,
            List.filter_cons_of_neg hp, ih]

theorem filter_eraseP_self (p : Vote → Bool) (l : List Vote) :
    (l.eraseP p).filter p = (l.filter p).tail := by
  induction l with
  | nil => rfl
  | cons v vs ih =>
      by_cases hp : p v
      · rw [List.eraseP_cons_of_pos hp, List.filter_cons_of_pos hp, List.tail_cons]
      · rw [List.eraseP_cons_of_neg hp, List.filter_cons_of_neg hp,
          List.filter_cons_of_neg hp, ih]

theorem filter_modifyFirst_disjoint (p q : Vote → Bool) (f : Vote → Vote) (l : List Vote)
    (h : ∀ x, q x = true → p x = false ∧ p (f x) = false) :
    (modifyFirst q f l).filter p = l.filter p := by
  induction l with
  | nil => rfl
  | cons v vs ih =>
      by_cases hq : q v
      · rw [modifyFirst, if_pos hq, List.filter_cons_of_neg (by simp [(h v hq).2]),
          List.filter_cons_of_neg (by simp [(h v hq).1])]
      · by_cases hp : p v
        · rw [modifyFirst, if_neg hq, List.filter_cons_of_pos hp,
            List.filter_cons_of_pos hp, ih]
        · rw [modifyFirst, if_neg hq, List.filter_cons_of_neg hp,
            List.filter_cons_of_neg hp, ih]

theorem filter_modifyFirst_self (p : Vote → Bool) (f : Vote → Vote) (l : List Vote)
    (h : ∀ x, p x = true → p (f x) = true) :
    (modifyFirst p f l).filter p =
      match l.filter p with
      | [] => []
      | x :: xs => f x :: xs := by
  induction l with
  | nil => rfl
  | cons v vs ih =>
      by_cases hp : p v
      · rw [modifyFirst, if_pos hp, List.filter_cons_of_pos (h v hp),
          List.filter_cons_of_pos hp]
      · rw [modifyFirst, if_neg hp, List.filter_cons_of_neg hp,
          List.filter_cons_of_neg hp, ih]

/-- Central characterization: `submit_assignment` returns the error decided
by the spec-side cascade `gateSpec` and leaves the store unchanged, or — when
`gateSpec` passes — appends exactly one Submission row. -/
theorem submit_eq (st : SubStore) (sid aid : Nat) (content file : Option String) (now : Int) :
    submit_assignment st sid aid content file now =
      match gateSpec st sid aid content file now with
      | some e => (.error e, st)
      | none => mkSuccess st sid aid content (successPath st sid aid file) := by
  rw [submit_assignment.eq_def, gateSpec]
  cases hfa : st.assignments.find? (fun a => a.id == aid) with
  | none => rfl
  | some assignment =>
    simp only []
    by_cases hact : assignment.is_active = true
    case neg =>
      have hact' : assignment.is_active = false := by
        simpa [Bool.not_eq_true] using hact
      conv_lhs => rw [if_pos (show (!assignment.is_active) = true by simp [hact'])]
      conv_rhs => rw [if_pos hact']
    case pos =>
    conv_lhs => rw [if_neg (show ¬ (!assignment.is_active) = true by simp [hact])]
    conv_rhs => rw [if_neg (show ¬ assignment.is_active = false by simp [hact])]
    cases hdue : assignment.due_date with
    | none => rfl
    | some due =>
      simp only []
      by_cases hpd : due < now
      case pos =>
        conv_lhs => rw [if_pos hpd]
        conv_rhs => rw [if_pos (show ¬ now ≤ due by omega)]
      case neg =>
      conv_lhs => rw [if_neg hpd]
      conv_rhs => rw [if_neg (show ¬ ¬ now ≤ due by omega)]
      by_cases husr : st.users.contains sid = true
      case neg =>
        have husr' : st.users.contains sid = false := by
          simpa [Bool.not_eq_true] using husr
        conv_lhs => rw [if_pos (show (!st.users.contains sid) = true by rw [husr']; rfl)]
        conv_rhs => rw [if_pos (show ¬ st.users.contains sid = true by rw [husr']; decide)]
      case pos =>
      conv_lhs => rw [if_neg (show ¬ (!st.users.contains sid) = true by rw [husr]; decide)]
      conv_rhs => rw [if_neg (not_not_intro husr)]
      by_cases h3 : attemptCount st sid aid ≥ 3
      case pos =>
        conv_lhs => rw [if_pos h3]
        conv_rhs => rw [if_pos (show ¬ attemptCount st sid aid < 3 by omega)]
      case neg =>
      conv_lhs => rw [if_neg h3]
      conv_rhs => rw [if_neg (show ¬ ¬ attemptCount st sid aid < 3 by omega)]
      by_cases hcf : (!contentPresent content && !filePresent file) = true
      case pos =>
        have hc : contentPresent content = false ∧ filePresent file = false := by
          constructor <;> cases hcp : contentPresent content <;>
            cases hfp : filePresent file <;> simp_all
        conv_lhs => rw [if_pos hcf]
        conv_rhs =>
          rw [if_pos (show ¬ (contentPresent content = true ∨ filePresent file = true) by
            simp [hc.1, hc.2])]
      case neg =>
      have hcf' : contentPresent content = true ∨ filePresent file = true := by
        cases hcp : contentPresent content with
        | true => exact Or.inl rfl
        | false =>
            cases hfp : filePresent file with
            | true => exact Or.inr rfl
            | false => exact absurd (by simp [hcp, hfp]) hcf
      conv_lhs => rw [if_neg hcf]
      conv_rhs => rw [if_neg (not_not_intro hcf')]
      cases file with
      | none => rfl
      | some fn =>
          simp only []
          by_cases hfn : (fn == "") = true
          case pos =>
            conv_lhs => rw [if_pos hfn]
            conv_rhs =>
              rw [if_neg (show ¬ (filePresent (some fn) = true ∧
                ¬ allowed_ext.contains (extOf ((some fn).getD "")) = true) by
                  simp [filePresent, hfn])]
            simp only [successPath]
            rw [if_pos hfn]
          case neg =>
          by_cases hext : allowed_ext.contains (extOf fn) = true
          case pos =>
            conv_lhs =>
              rw [if_neg hfn,
                if_neg (show ¬ (!allowed_ext.contains (extOf fn)) = true by
                  rw [hext]; decide)]
            conv_rhs =>
              rw [if_neg (show ¬ (filePresent (some fn) = true ∧
                ¬ allowed_ext.contains (extOf ((some fn).getD "")) = true) from
                  fun h => h.2 hext)]
            simp only [successPath]
            rw [if_neg hfn]
          case neg =>
            have hext' : allowed_ext.contains (extOf fn) = false := by
              simpa [Bool.not_eq_true] using hext
            have hfn' : (fn == "") = false := by
              cases hv : (fn == "") <;> simp_all
            conv_lhs =>
              rw [if_neg hfn,
                if_pos (show (!allowed_ext.contains (extOf fn)) = true by
                  rw [hext']; rfl)]
            conv_rhs =>
              rw [if_pos (show filePresent (some fn) = true ∧
                ¬ allowed_ext.contains (extOf ((some fn).getD "")) = true from
                  ⟨by rw [filePresent, hfn']; rfl, hext⟩)]

/-! ## Claim theorems -/

/-- C5: `get_votes` (tally) fails with a not-found error exactly when the
referenced answer does not exist; otherwise it returns `upvotes` counting the
answer's votes with vote_type "up", `downvotes` counting those with "down",
and `total_score = upvotes - downvotes` as an integer (possibly negative).
It mutates no record: by its type it is a pure read of the store, matching
the handler, which performs no session mutation. -/
theorem get_votes_spec (st : VoteStore) (answer_id : Nat) :
    (get_votes st answer_id = .error "Answer not found" ↔
      ¬ ∃ a ∈ st.answers, a.id = answer_id)
    ∧ ∀ t, get_votes st answer_id = .ok t →
        t.answer_id = answer_id ∧
        t.upvotes = st.votes.countP (fun v => v.answer_id == answer_id && v.vote_type == "up") ∧
        t.downvotes = st.votes.countP (fun v => v.answer_id == answer_id && v.vote_type == "down") ∧
        t.total_score = (t.upvotes : Int) - (t.downvotes : Int) := by
  by_cases h : (st.answers.find? (fun an => an.id == answer_id)).isNone
  · rw [Option.isNone_iff_eq_none] at h
    constructor
    · simp only [get_votes, h, Option.isNone_none, if_pos trivial]
      simp only [List.find?_eq_none] at h
      simp only [true_iff]
      rintro ⟨a, hmem, hid⟩
      exact h a hmem (by simp [hid])
    · intro t ht
      rw [get_votes] at ht
      simp [h] at ht
  · cases hfa : st.answers.find? (fun an => an.id == answer_id) with
    | none => rw [hfa] at h; simp at h
    | some a =>
        have hmem := List.mem_of_find?_eq_some hfa
        have hid : a.id = answer_id := by
          have := List.find?_some hfa
          simpa using this
        constructor
        · simp only [get_votes, hfa, Option.isNone_some, Bool.false_eq_true, if_false]
          constructor
          · intro hcontra; exact absurd hcontra (by simp)
          · intro hcontra
            exact absurd ⟨a, hmem, hid⟩ hcontra
        · intro t ht
          rw [get_votes] at ht
          simp only [hfa, Option.isNone_some, Bool.false_eq_true, if_false, Except.ok.injEq] at ht
          subst ht
          refine ⟨rfl, ?_, ?_, rfl⟩ <;> rw [List.countP_eq_length_filter]

/-- Witness for C5 at a concrete store: answer 2 does not exist, so the call
fails with the not-found error; answer 1 exists with one down vote, and its
returned tally (0 up, 1 down, score -1) satisfies the counting claims. -/
theorem get_votes_spec_witness :
    get_votes ⟨[5], [⟨1, 1, 2, "x"⟩], [⟨5, 1, "down"⟩]⟩ 2 = .error "Answer not found" ∧
    ((1 : Nat) = 1 ∧
      (0 : Nat) = List.countP (fun v => v.answer_id == 1 && v.vote_type == "up")
        ([⟨5, 1, "down"⟩] : List Vote) ∧
      (1 : Nat) = List.countP (fun v => v.answer_id == 1 && v.vote_type == "down")
        ([⟨5, 1, "down"⟩] : List Vote) ∧
      (-1 : Int) = ((0 : Nat) : Int) - ((1 : Nat) : Int)) :=
  ⟨(get_votes_spec ⟨[5], [⟨1, 1, 2, "x"⟩], [⟨5, 1, "down"⟩]⟩ 2).1.mpr (by decide),
   (get_votes_spec ⟨[5], [⟨1, 1, 2, "x"⟩], [⟨5, 1, "down"⟩]⟩ 1).2 ⟨1, 0, 1, -1⟩ rfl⟩

/-- C9: supplying `question_id = 0` to `get_top_answers` (rank) yields exactly
the same result as supplying no question_id at all, because the per-question
filter is applied only when the parameter parses to a nonzero integer; in
particular the candidate set for question_id 0 is every answer in the store,
not the set of answers whose question_id is 0. -/
theorem top_answers_question_id_zero (st : VoteStore) :
    get_top_answers st (some 0) = get_top_answers st none ∧
    topAnswerCandidates st (some 0) = st.answers := by
  constructor <;> rfl

/-- C2: given a valid vote_type and an existing user and answer, `vote_answer`
(cast_vote) is a three-way case split on the existing vote for the pair: no
existing vote creates one with the given vote_type (`created`); an existing
vote of the same vote_type is deleted (`removed`); an existing vote of the
other vote_type has its vote_type overwritten in place — the vote list keeps
its length and the row its position (`switched`).  Exactly one of the three
outcomes occurs on every such call. -/
theorem vote_answer_three_way (st : VoteStore) (answer_id user_id : Nat) (vote_type : String)
    (hu : user_id ≠ 0)
    (ht : vote_type = "up" ∨ vote_type = "down")
    (ha : (st.answers.find? (fun an => an.id == answer_id)).isSome = true)
    (husr : st.users.contains user_id = true) :
    (st.votes.find? (pairP user_id answer_id) = none →
      vote_answer st answer_id user_id vote_type =
        (.created, { st with votes := st.votes ++ [⟨user_id, answer_id, vote_type⟩] }))
    ∧ (∀ v, st.votes.find? (pairP user_id answer_id) = some v → v.vote_type = vote_type →
      vote_answer st answer_id user_id vote_type =
        (.removed, { st with votes := st.votes.eraseP (pairP user_id answer_id) }))
    ∧ (∀ v, st.votes.find? (pairP user_id answer_id) = some v → v.vote_type ≠ vote_type →
      vote_answer st answer_id user_id vote_type =
        (.switched, { st with votes := switchVotes user_id answer_id vote_type st.votes }) ∧
      (switchVotes user_id answer_id vote_type st.votes).length = st.votes.length)
    ∧ ((vote_answer st answer_id user_id vote_type).1 = .created ∨
       (vote_answer st answer_id user_id vote_type).1 = .removed ∨
       (vote_answer st answer_id user_id vote_type).1 = .switched) := by
  have h0 : (user_id == 0) = false := beq_eq_false_iff_ne.mpr hu
  have hts : (vote_type == "") = false := by
    rcases ht with h | h <;> subst h <;> rfl
  have hcontains : (["up", "down"].contains vote_type) = true := by
    rcases ht with h | h <;> subst h <;> rfl
  obtain ⟨a, hfa⟩ := Option.isSome_iff_exists.mp ha
  have key : ∀ r, vote_answer st answer_id user_id vote_type = r ↔
      (match st.votes.find? (pairP user_id answer_id) with
       | none => (VoteOutcome.created,
           { st with votes := st.votes ++ [⟨user_id, answer_id, vote_type⟩] })
       | some v =>
           if v.vote_type == vote_type then
             (VoteOutcome.removed, { st with votes := st.votes.eraseP (pairP user_id answer_id) })
           else
             (VoteOutcome.switched,
               { st with votes := switchVotes user_id answer_id vote_type st.votes })) = r := by
    intro r
    rw [vote_answer]
    simp only [h0, hts, Bool.or_self, Bool.false_eq_true, if_false, hcontains,
      Bool.not_true, hfa, Option.isNone_some, husr]
  refine ⟨?_, ?_, ?_, ?_⟩
  · intro hv
    rw [key]
    simp only [hv]
  · intro v hv hvt
    rw [key]
    simp [hv, hvt]
  · intro v hv hvt
    refine ⟨?_, modifyFirst_length _ _ _⟩
    rw [key]
    simp [hv, beq_eq_false_iff_ne.mpr hvt]
  · have heq := (key _).mpr rfl
    rw [heq]
    cases hv : st.votes.find? (pairP user_id answer_id) with
    | none => left; simp [hv]
    | some v =>
        by_cases hvt : v.vote_type == vote_type
        · right; left; simp [hv, hvt]
        · right; right; simp [hv, hvt]


/-- Witness for C2: in a store with user 5, answer 1 and no votes, casting an
upvote hits the `created` branch and appends the vote row. -/
theorem vote_answer_three_way_witness :
    vote_answer ⟨[5], [⟨1, 1, 2, "ans"⟩], []⟩ 1 5 "up" =
      (.created, ⟨[5], [⟨1, 1, 2, "ans"⟩], [⟨5, 1, "up"⟩]⟩) :=
  (vote_answer_three_way ⟨[5], [⟨1, 1, 2, "ans"⟩], []⟩ 1 5 "up" (by decide)
    (Or.inl rfl) (by decide) (by decide)).1 rfl

/-- C3: `submit_assignment` runs its precondition checks in exactly the
claimed order — (1) assignment exists, (2) assignment is active, (3) a due
date is set, (4) `now` at or before the due date (a call at exactly the due
date is accepted; only `now` strictly greater is PAST_DEADLINE), (5) student
exists, (6) prior attempt count below 3, (7) content or file present, (8) a
present file has an allowed extension — short-circuiting at the first
failure, so the first failing check determines the returned error
(`gateSpec` is that cascade written from the claim's words); when every
check passes a Submission row is persisted. -/
theorem submit_assignment_check_order (st : SubStore) (student_id assignment_id : Nat)
    (content file : Option String) (now : Int) :
    errOf (submit_assignment st student_id assignment_id content file now).1 =
      gateSpec st student_id assignment_id content file now
    ∧ (gateSpec st student_id assignment_id content file now = none →
        ∃ row, (submit_assignment st student_id assignment_id content file now).1 = .ok row ∧
          (submit_assignment st student_id assignment_id content file now).2.submissions =
            st.submissions ++ [row] ∧
          row.student_id = student_id ∧ row.assignment_id = assignment_id ∧
          row.content = content) := by
  constructor
  · rw [submit_eq]
    cases hg : gateSpec st student_id assignment_id content file now with
    | none => rfl
    | some e => rfl
  · intro hg
    rw [submit_eq, hg]
    exact ⟨_, rfl, rfl, rfl, rfl, rfl⟩

/-- Witness for C3: a concrete call with every check passing, made exactly at
the due date (now = due = 100), is accepted and persists one row. -/
theorem submit_assignment_check_order_witness :
    errOf (submit_assignment ⟨[⟨9, true, some 100⟩], [5], []⟩ 5 9 (some "hi") none 100).1 =
      gateSpec ⟨[⟨9, true, some 100⟩], [5], []⟩ 5 9 (some "hi") none 100 ∧
    ∃ row, (submit_assignment ⟨[⟨9, true, some 100⟩], [5], []⟩ 5 9 (some "hi") none 100).1 =
        .ok row ∧
      (submit_assignment ⟨[⟨9, true, some 100⟩], [5], []⟩ 5 9 (some "hi") none 100).2.submissions =
        ([] : List SubmissionRec) ++ [row] ∧
      row.student_id = 5 ∧ row.assignment_id = 9 ∧ row.content = some "hi" :=
  ⟨(submit_assignment_check_order ⟨[⟨9, true, some 100⟩], [5], []⟩ 5 9 (some "hi") none 100).1,
   (submit_assignment_check_order ⟨[⟨9, true, some 100⟩], [5], []⟩ 5 9 (some "hi") none 100).2
     (by decide)⟩

/-- C7: `submit_assignment` is atomic with respect to the store on failure:
on every rejection path the store is returned unchanged (no Submission is
created, no persisted record mutated), and on success the only write is the
append of the one new Submission row, performed after all checks passed. -/
theorem submit_assignment_atomic (st : SubStore) (student_id assignment_id : Nat)
    (content file : Option String) (now : Int) :
    (∀ e, (submit_assignment st student_id assignment_id content file now).1 = .error e →
      (submit_assignment st student_id assignment_id content file now).2 = st)
    ∧ (∀ row, (submit_assignment st student_id assignment_id content file now).1 = .ok row →
      (submit_assignment st student_id assignment_id content file now).2 =
        { st with submissions := st.submissions ++ [row] }) := by
  rw [submit_eq]
  cases hg : gateSpec st student_id assignment_id content file now with
  | some e =>
      constructor
      · intro e' _; rfl
      · intro row hrow; exact absurd hrow (by simp [mkSuccess])
  | none =>
      constructor
      · intro e' he; exact absurd he (by simp [mkSuccess])
      · intro row hrow
        have : row = ⟨student_id, assignment_id, content,
            successPath st student_id assignment_id file⟩ := by
          simpa [mkSuccess] using hrow.symm
        subst this
        rfl

/-- Witness for C7: a rejected call (missing assignment) leaves the empty
store unchanged, and an accepted call appends exactly its returned row. -/
theorem submit_assignment_atomic_witness :
    (submit_assignment ⟨[], [], []⟩ 5 9 (some "hi") none 100).2 = ⟨[], [], []⟩ ∧
    (submit_assignment ⟨[⟨9, true, some 100⟩], [5], []⟩ 5 9 (some "hi") none 50).2 =
      ⟨[⟨9, true, some 100⟩], [5], [⟨5, 9, some "hi", none⟩]⟩ :=
  ⟨(submit_assignment_atomic ⟨[], [], []⟩ 5 9 (some "hi") none 100).1
      .ASSIGNMENT_NOT_FOUND rfl,
   (submit_assignment_atomic ⟨[⟨9, true, some 100⟩], [5], []⟩ 5 9 (some "hi") none 50).2
      ⟨5, 9, some "hi", none⟩ rfl⟩


/-- A passing gate implies the attempt count for the call's pair was below 3
(check 6 is part of the cascade). -/
theorem gateSpec_none_attempts (st : SubStore) (sid aid : Nat)
    (content file : Option String) (now : Int)
    (h : gateSpec st sid aid content file now = none) :
    attemptCount st sid aid < 3 := by
  rw [gateSpec] at h
  cases hfa : st.assignments.find? (fun a => a.id == aid) with
  | none => rw [hfa] at h; simp at h
  | some assignment =>
      rw [hfa] at h
      simp only [] at h
      by_cases hact : assignment.is_active = false
      · rw [if_pos hact] at h; simp at h
      · rw [if_neg hact] at h
        cases hdue : assignment.due_date with
        | none => rw [hdue] at h; simp at h
        | some due =>
            rw [hdue] at h
            simp only [] at h
            by_cases hpd : ¬ now ≤ due
            · rw [if_pos hpd] at h; simp at h
            · rw [if_neg hpd] at h
              by_cases husr : ¬ st.users.contains sid = true
              · rw [if_pos husr] at h; simp at h
              · rw [if_neg husr] at h
                by_cases h3 : ¬ attemptCount st sid aid < 3
                · rw [if_pos h3] at h; simp at h
                · exact not_not.mp h3

/-- Appending one Submission row adds one to the attempt count of its own
(student, assignment) pair and leaves every other pair's count unchanged. -/
theorem attemptCount_append (st : SubStore) (u a cs ca : Nat) (cc cf : Option String) :
    attemptCount { st with submissions := st.submissions ++ [⟨cs, ca, cc, cf⟩] } u a =
      attemptCount st u a + (if (cs == u && ca == a) = true then 1 else 0) := by
  rw [attemptCount, attemptCount]
  simp only [List.filter_append, List.length_append]
  by_cases hm : (cs == u && ca == a) = true <;>
    simp [List.filter_cons, hm]

/-- One `submit_assignment` call keeps the attempt count of every pair at or
below 3 when it started there. -/
theorem attemptCount_step (st : SubStore) (u a : Nat) (c : SubmitCall)
    (h : attemptCount st u a ≤ 3) :
    attemptCount
      (submit_assignment st c.student_id c.assignment_id c.content c.file c.now).2 u a ≤ 3 := by
  rw [submit_eq]
  cases hg : gateSpec st c.student_id c.assignment_id c.content c.file c.now with
  | some e => exact h
  | none =>
      have hlt := gateSpec_none_attempts st c.student_id c.assignment_id c.content c.file c.now hg
      simp only [mkSuccess]
      rw [attemptCount_append]
      by_cases hm : (c.student_id == u && c.assignment_id == a) = true
      · have hm' := Bool.and_eq_true_iff.mp hm
        have h1 : c.student_id = u := beq_iff_eq.mp hm'.1
        have h2 : c.assignment_id = a := beq_iff_eq.mp hm'.2
        rw [h1, h2] at hlt
        rw [if_pos hm]
        omega
      · rw [if_neg hm]
        omega

/-- C4: in a state where the call reaches the attempt check (assignment
found, active, with a due date not yet passed, student exists), an attempt
count of 3 or more makes `submit_assignment` return ATTEMPT_LIMIT_REACHED
with the store unchanged, regardless of content and file; and under any
sequence of sequential calls a pair's Submission count never grows beyond 3
once it is at most 3. -/
theorem submit_attempt_limit (st : SubStore) (sid aid : Nat) :
    (∀ content file now assignment due,
      st.assignments.find? (fun a => a.id == aid) = some assignment →
      assignment.is_active = true →
      assignment.due_date = some due →
      now ≤ due →
      st.users.contains sid = true →
      3 ≤ attemptCount st sid aid →
      submit_assignment st sid aid content file now =
        (.error .ATTEMPT_LIMIT_REACHED, st))
    ∧ (∀ calls, attemptCount st sid aid ≤ 3 →
        attemptCount (runSubmitCalls st calls) sid aid ≤ 3) := by
  constructor
  · intro content file now assignment due hfa hact hdue hnd husr h3
    have hg : gateSpec st sid aid content file now = some .ATTEMPT_LIMIT_REACHED := by
      rw [gateSpec, hfa]
      simp only []
      rw [if_neg (by simp [hact]), hdue]
      simp only []
      rw [if_neg (not_not_intro hnd), if_neg (not_not_intro husr),
        if_pos (show ¬ attemptCount st sid aid < 3 by omega)]
    rw [submit_eq, hg]
  · intro calls
    induction calls generalizing st with
    | nil => intro h; exact h
    | cons c cs ih => intro h; exact ih _ (attemptCount_step st sid aid c h)

/-- Witness for C4: with 3 stored attempts for (student 5, assignment 9) and
an otherwise fully valid call, the 4th call is rejected with
ATTEMPT_LIMIT_REACHED and the store is unchanged; a further call sequence
keeps the count at 3. -/
theorem submit_attempt_limit_witness :
    submit_assignment
        ⟨[⟨9, true, some 100⟩], [5],
          [⟨5, 9, some "a", none⟩, ⟨5, 9, some "b", none⟩, ⟨5, 9, some "c", none⟩]⟩
        5 9 (some "ok") none 50 =
      (.error .ATTEMPT_LIMIT_REACHED,
        ⟨[⟨9, true, some 100⟩], [5],
          [⟨5, 9, some "a", none⟩, ⟨5, 9, some "b", none⟩, ⟨5, 9, some "c", none⟩]⟩) ∧
    attemptCount
        (runSubmitCalls
          ⟨[⟨9, true, some 100⟩], [5],
            [⟨5, 9, some "a", none⟩, ⟨5, 9, some "b", none⟩, ⟨5, 9, some "c", none⟩]⟩
          [⟨5, 9, some "again", none, 50⟩, ⟨5, 9, some "more", none, 60⟩]) 5 9 ≤ 3 :=
  ⟨(submit_attempt_limit
      ⟨[⟨9, true, some 100⟩], [5],
        [⟨5, 9, some "a", none⟩, ⟨5, 9, some "b", none⟩, ⟨5, 9, some "c", none⟩]⟩ 5 9).1
      (some "ok") none 50 ⟨9, true, some 100⟩ 100 rfl rfl rfl (by decide) (by decide)
      (by decide),
   (submit_attempt_limit
      ⟨[⟨9, true, some 100⟩], [5],
        [⟨5, 9, some "a", none⟩, ⟨5, 9, some "b", none⟩, ⟨5, 9, some "c", none⟩]⟩ 5 9).2
      [⟨5, 9, some "again", none, 50⟩, ⟨5, 9, some "more", none, 60⟩] (by decide)⟩


/-- `str.split(".")` on a dot-free character list yields the whole list as
the single segment. -/
theorem splitOnDot_no_dot (l : List Char) (h : ('.' : Char) ∉ l) :
    splitOnDot l = [l] := by
  induction l with
  | nil => rfl
  | cons c cs ih =>
      rw [List.mem_cons, not_or] at h
      rw [splitOnDot, ih h.2]
      simp only []
      rw [if_neg (show ¬ (c == '.') = true from
        fun hcc => h.1 (beq_iff_eq.mp hcc).symm)]

/-- C10: the extension of an uploaded file is the lowercased segment after
the last '.' of the filename (`extOf` is the translation of
`file.filename.split(".")[-1].lower()`); for a filename with no '.', the
entire lowercased filename is used, so a file whose full name is exactly one
of the allowed extensions (for example "pdf", with no dot) passes the
file-type check and the submission is accepted rather than rejected as
INVALID_FILE_TYPE. -/
theorem file_ext_no_dot (fn : String) (h : ('.' : Char) ∉ fn.data) :
    extOf fn = String.mk (fn.data.map Char.toLower) ∧
    (∀ name, name ∈ allowed_ext → allowed_ext.contains (extOf name) = true) ∧
    errOf (submit_assignment ⟨[⟨9, true, some 100⟩], [5], []⟩ 5 9 none (some "pdf") 50).1 ≠
      some .INVALID_FILE_TYPE ∧
    (submit_assignment ⟨[⟨9, true, some 100⟩], [5], []⟩ 5 9 none (some "pdf") 50).1 =
      .ok ⟨5, 9, none, some "uploads/submissions/student5_assignment9_attempt1_pdf"⟩ := by
  refine ⟨?_, ?_, ?_, ?_⟩
  · rw [extOf, splitOnDot_no_dot fn.data h]
    rfl
  · intro name hname
    fin_cases hname <;> decide
  · decide
  · rfl

/-- Witness for C10: the dot-free filename "pdf" has extension "pdf", the
whole lowercased name. -/
theorem file_ext_no_dot_witness :
    extOf "pdf" = String.mk ("pdf".data.map Char.toLower) :=
  (file_ext_no_dot "pdf" (by decide)).1


/-- Stable insertion is a permutation of consing. -/
theorem insertByScore_perm (x : RankEntry) (l : List RankEntry) :
    (insertByScore x l).Perm (x :: l) := by
  induction l with
  | nil => exact List.Perm.refl _
  | cons y ys ih =>
      rw [insertByScore]
      by_cases hxy : x.score < y.score
      · rw [if_pos hxy]
        exact ((ih.cons y).trans (List.Perm.swap x y ys))
      · rw [if_neg hxy]

/-- `sortByScore` permutes its input. -/
theorem sortByScore_perm (l : List RankEntry) : (sortByScore l).Perm l := by
  induction l with
  | nil => exact List.Perm.refl _
  | cons x xs ih =>
      rw [sortByScore]
      exact (insertByScore_perm x (sortByScore xs)).trans (ih.cons x)

/-- Stable insertion preserves the non-increasing-score order. -/
theorem insertByScore_pairwise (x : RankEntry) (l : List RankEntry)
    (hl : l.Pairwise (fun p q => q.score ≤ p.score)) :
    (insertByScore x l).Pairwise (fun p q => q.score ≤ p.score) := by
  induction l with
  | nil => simp [insertByScore]
  | cons y ys ih =>
      rw [insertByScore]
      rw [List.pairwise_cons] at hl
      by_cases hxy : x.score < y.score
      · rw [if_pos hxy]
        rw [List.pairwise_cons]
        refine ⟨?_, ih hl.2⟩
        intro w hw
        have hw' : w ∈ x :: ys := (insertByScore_perm x ys).mem_iff.mp hw
        rcases List.mem_cons.mp hw' with rfl | hwys
        · omega
        · exact hl.1 w hwys
      · rw [if_neg hxy]
        rw [List.pairwise_cons]
        refine ⟨?_, List.pairwise_cons.mpr hl⟩
        intro w hw
        rcases List.mem_cons.mp hw with rfl | hwys
        · omega
        · have h1 : w.score ≤ y.score := hl.1 w hwys
          omega

/-- `sortByScore` output is non-increasing in score. -/
theorem sortByScore_pairwise (l : List RankEntry) :
    (sortByScore l).Pairwise (fun p q => q.score ≤ p.score) := by
  induction l with
  | nil => exact List.Pairwise.nil
  | cons x xs ih => exact insertByScore_pairwise x (sortByScore xs) ih

/-- Counterexample to C6 as stated: with one answer whose question_id is 1
and a supplied question_id of 0, `get_top_answers` returns that answer (count
1), although the set of answers whose question_id matches the given 0 is
empty — so "only those whose question_id matches the given one when a
question_id is supplied" fails at question_id = 0. -/
theorem rank_counterexample :
    (get_top_answers ⟨[], [⟨1, 1, 2, "x"⟩], []⟩ (some 0)).1 = 1 ∧
    ([⟨1, 1, 2, "x"⟩] : List Answer).filter (fun a => a.question_id == 0) = [] := by
  constructor <;> rfl

/-- C6 (amended for the question_id = 0 edge): `get_top_answers` selects all
answers when no question_id is supplied, and only the answers with the given
question_id when a nonzero question_id is supplied (a supplied question_id
of 0 is treated like an absent one); it tallies each candidate (each entry's
score is its upvotes minus downvotes), returns the entries as a permutation
of the candidates' tallies ordered with non-increasing scores, and reports a
count equal to the number of entries returned. -/
theorem rank_spec (st : VoteStore) (qid : Option Int) :
    (get_top_answers st qid).1 = (get_top_answers st qid).2.length ∧
    (get_top_answers st qid).2.Pairwise (fun p q => q.score ≤ p.score) ∧
    (get_top_answers st qid).2.Perm ((topAnswerCandidates st qid).map (entryOf st)) ∧
    (qid = none → topAnswerCandidates st qid = st.answers) ∧
    (∀ q, qid = some q → q ≠ 0 →
      topAnswerCandidates st qid = st.answers.filter (fun a => a.question_id == q)) ∧
    (∀ e, e ∈ (get_top_answers st qid).2 →
      e.score = (e.upvotes : Int) - (e.downvotes : Int)) := by
  refine ⟨rfl, sortByScore_pairwise _, sortByScore_perm _, ?_, ?_, ?_⟩
  · intro h; subst h; rfl
  · intro q hq hq0
    subst hq
    rw [topAnswerCandidates]
    rw [if_neg (show ¬ (q == 0) = true from
      fun hc => hq0 (beq_iff_eq.mp hc))]
  · intro e he
    have hm : e ∈ (topAnswerCandidates st qid).map (entryOf st) :=
      (sortByScore_perm _).mem_iff.mp he
    obtain ⟨a, _, rfl⟩ := List.mem_map.mp hm
    rfl

/-- Witness for C6 (amended): a two-answer store ranked for question 2
exercises the nonzero filter, the no-filter case, and the per-entry score
equation. -/
theorem rank_spec_witness :
    topAnswerCandidates ⟨[5], [⟨1, 1, 2, "x"⟩, ⟨2, 2, 2, "y"⟩], [⟨5, 2, "up"⟩]⟩ (some 2) =
      ([⟨1, 1, 2, "x"⟩, ⟨2, 2, 2, "y"⟩] : List Answer).filter (fun a => a.question_id == 2) ∧
    topAnswerCandidates ⟨[5], [⟨1, 1, 2, "x"⟩, ⟨2, 2, 2, "y"⟩], [⟨5, 2, "up"⟩]⟩ none =
      ([⟨1, 1, 2, "x"⟩, ⟨2, 2, 2, "y"⟩] : List Answer) ∧
    ((⟨2, 2, 2, "y", 1, 0, 1⟩ : RankEntry).score =
      (((⟨2, 2, 2, "y", 1, 0, 1⟩ : RankEntry).upvotes : Int) -
        ((⟨2, 2, 2, "y", 1, 0, 1⟩ : RankEntry).downvotes : Int))) :=
  ⟨(rank_spec ⟨[5], [⟨1, 1, 2, "x"⟩, ⟨2, 2, 2, "y"⟩], [⟨5, 2, "up"⟩]⟩ (some 2)).2.2.2.2.1
      2 rfl (by decide),
   (rank_spec ⟨[5], [⟨1, 1, 2, "x"⟩, ⟨2, 2, 2, "y"⟩], [⟨5, 2, "up"⟩]⟩ none).2.2.2.1 rfl,
   (rank_spec ⟨[5], [⟨1, 1, 2, "x"⟩, ⟨2, 2, 2, "y"⟩], [⟨5, 2, "up"⟩]⟩ (some 2)).2.2.2.2.2
      ⟨2, 2, 2, "y", 1, 0, 1⟩ (by decide)⟩


/-- Vote requests never touch the users or answers tables. -/
theorem applyVoteEvent_frame (st : VoteStore) (e : VoteEvent) :
    (applyVoteEvent st e).answers = st.answers ∧ (applyVoteEvent st e).users = st.users := by
  cases e with
  | cast u' a' t =>
      simp only [applyVoteEvent, vote_answer]
      repeat' split
      all_goals exact ⟨rfl, rfl⟩
  | rem u' a' =>
      simp only [applyVoteEvent, remove_vote]
      repeat' split
      all_goals exact ⟨rfl, rfl⟩

/-- A row matching one (user, answer) pair cannot match a different pair. -/
theorem pairP_disjoint (u' a' u a : Nat) (hpair : (u' == u && a' == a) = false)
    (x : Vote) (hx : pairP u' a' x = true) : pairP u a x = false := by
  rw [pairP, Bool.and_eq_true] at hx
  rw [pairP, show x.user_id = u' from beq_iff_eq.mp hx.1,
    show x.answer_id = a' from beq_iff_eq.mp hx.2]
  exact hpair

/-- `vote_answer` for one pair leaves the vote rows of any other pair
untouched. -/
theorem votesFor_vote_answer_other (st : VoteStore) (a' u' : Nat) (t : String)
    (u a : Nat) (hpair : (u' == u && a' == a) = false) :
    votesFor (vote_answer st a' u' t).2 u a = votesFor st u a := by
  rw [vote_answer]
  by_cases h1 : (u' == 0 || t == "") = true
  · rw [if_pos h1]
  · rw [if_neg h1]
    by_cases h2 : (!(["up", "down"].contains t)) = true
    · rw [if_pos h2]
    · rw [if_neg h2]
      by_cases h3 : (st.answers.find? (fun an => an.id == a')).isNone = true
      · rw [if_pos h3]
      · rw [if_neg h3]
        by_cases h4 : (!(st.users.contains u')) = true
        · rw [if_pos h4]
        · rw [if_neg h4]
          cases hv : st.votes.find? (pairP u' a') with
          | none =>
              simp only [votesFor, List.filter_append]
              rw [List.filter_cons_of_neg
                (by rw [show pairP u a ⟨u', a', t⟩ = (u' == u && a' == a) from rfl, hpair]; decide)]
              rw [List.filter_nil, List.append_nil]
          | some v =>
              simp only []
              by_cases hvt : (v.vote_type == t) = true
              · rw [if_pos hvt]
                exact filter_eraseP_disjoint _ _ _ (pairP_disjoint u' a' u a hpair)
              · rw [if_neg hvt]
                refine filter_modifyFirst_disjoint _ _ _ _ ?_
                intro x hx
                refine ⟨pairP_disjoint u' a' u a hpair x hx, ?_⟩
                have : pairP u' a' { x with vote_type := t } = true := hx
                exact pairP_disjoint u' a' u a hpair _ this

/-- `remove_vote` for one pair leaves the vote rows of any other pair
untouched. -/
theorem votesFor_remove_vote_other (st : VoteStore) (a' u' : Nat)
    (u a : Nat) (hpair : (u' == u && a' == a) = false) :
    votesFor (remove_vote st a' u').2 u a = votesFor st u a := by
  rw [remove_vote]
  by_cases h1 : (u' == 0) = true
  · rw [if_pos h1]
  · rw [if_neg h1]
    cases hv : st.votes.find? (pairP u' a') with
    | none => rfl
    | some v => exact filter_eraseP_disjoint _ _ _ (pairP_disjoint u' a' u a hpair)


/-- A pair whose rows are `pairRows s` has abstract state `s`. -/
theorem pairState_eq (st : VoteStore) (u a : Nat) (s : Option String)
    (h : votesFor st u a = pairRows u a s) : pairState st u a = s := by
  cases s <;> rw [pairState, h] <;> rfl

/-- With at most one row for the pair, the rows are exactly `pairRows` of the
pair state (a row found by the filter carries the pair's own ids). -/
theorem votesFor_pairRows (st : VoteStore) (u a : Nat)
    (h : (votesFor st u a).length ≤ 1) :
    votesFor st u a = pairRows u a (pairState st u a) := by
  cases hl : votesFor st u a with
  | nil => rw [pairState, hl]; rfl
  | cons w ws =>
      have hws : ws = [] := by
        rw [hl] at h
        simp only [List.length_cons] at h
        simpa using List.length_eq_zero.mp (by omega : ws.length = 0)
      subst hws
      have hwmem : w ∈ st.votes.filter (pairP u a) := by
        rw [show st.votes.filter (pairP u a) = [w] from hl]
        exact List.mem_cons_self w []
      have hpw : pairP u a w = true := List.of_mem_filter hwmem
      obtain ⟨wu, wa, wt⟩ := w
      rw [pairP, Bool.and_eq_true] at hpw
      have h1 : wu = u := beq_iff_eq.mp hpw.1
      have h2 : wa = a := beq_iff_eq.mp hpw.2
      subst h1; subst h2
      rw [pairState, hl]
      rfl

/-- With at most one row for the pair, a found row is the only row. -/
theorem votesFor_singleton (st : VoteStore) (u a : Nat) (v : Vote)
    (h : (votesFor st u a).length ≤ 1)
    (hv : st.votes.find? (pairP u a) = some v) :
    votesFor st u a = [v] := by
  rw [find?_eq_head?_filter] at hv
  cases hl : votesFor st u a with
  | nil =>
      rw [votesFor] at hl
      rw [hl] at hv
      simp at hv
  | cons w ws =>
      have hws : ws = [] := by
        rw [hl] at h
        simp only [List.length_cons] at h
        simpa using List.length_eq_zero.mp (by omega : ws.length = 0)
      subst hws
      rw [votesFor] at hl
      rw [hl] at hv
      simp only [List.head?_cons, Option.some.injEq] at hv
      rw [hv]


/-- One vote request moves a pair's rows exactly as the abstract transition
`absStep` moves its state. -/
theorem votesFor_step (st : VoteStore) (u a : Nat) (e : VoteEvent)
    (h : votesFor st u a = pairRows u a (pairState st u a)) :
    votesFor (applyVoteEvent st e) u a =
      pairRows u a (absStep st.answers st.users u a (pairState st u a) e) := by
  have hlen : (votesFor st u a).length ≤ 1 := by
    rw [h]; cases pairState st u a <;> simp [pairRows]
  cases e with
  | cast u' a' t =>
      simp only [applyVoteEvent, absStep]
      by_cases hpair : (u' == u && a' == a) = true
      · obtain ⟨hu, ha⟩ := Bool.and_eq_true_iff.mp hpair
        have hu' : u' = u := beq_iff_eq.mp hu
        have ha' : a' = a := beq_iff_eq.mp ha
        subst hu'; subst ha'
        rw [if_pos hpair, vote_answer]
        by_cases h1 : (u' == 0 || t == "") = true
        · rw [if_pos h1, if_pos h1]; exact h
        · rw [if_neg h1, if_neg h1]
          by_cases h2 : (!(["up", "down"].contains t)) = true
          · rw [if_pos h2, if_pos h2]; exact h
          · rw [if_neg h2, if_neg h2]
            by_cases h3 : (st.answers.find? (fun an => an.id == a')).isNone = true
            · rw [if_pos h3, if_pos h3]; exact h
            · rw [if_neg h3, if_neg h3]
              by_cases h4 : (!(st.users.contains u')) = true
              · rw [if_pos h4, if_pos h4]; exact h
              · rw [if_neg h4, if_neg h4]
                cases hv : st.votes.find? (pairP u' a') with
                | none =>
                    have hfil : st.votes.filter (pairP u' a') = [] := by
                      rw [find?_eq_head?_filter] at hv
                      cases hf : st.votes.filter (pairP u' a') with
                      | nil => rfl
                      | cons w ws => rw [hf] at hv; simp at hv
                    have hs : pairState st u' a' = none := by
                      rw [pairState, votesFor, hfil]; rfl
                    rw [hs]
                    show (st.votes ++ [(⟨u', a', t⟩ : Vote)]).filter (pairP u' a') =
                      pairRows u' a' (some t)
                    rw [List.filter_append, hfil]
                    rw [List.filter_cons_of_pos (by simp [pairP])]
                    rfl
                | some v =>
                    have hsing := votesFor_singleton st u' a' v hlen hv
                    have hfil : st.votes.filter (pairP u' a') = [v] := by
                      rw [votesFor] at hsing; exact hsing
                    have hpv : pairP u' a' v = true :=
                      List.of_mem_filter (p := pairP u' a')
                        (by rw [hfil]; exact List.mem_cons_self _ _)
                    rw [pairP, Bool.and_eq_true] at hpv
                    have hvu : v.user_id = u' := beq_iff_eq.mp hpv.1
                    have hva : v.answer_id = a' := beq_iff_eq.mp hpv.2
                    have hs : pairState st u' a' = some v.vote_type := by
                      rw [pairState, hsing]; rfl
                    rw [hs]
                    simp only []
                    by_cases hvt : (v.vote_type == t) = true
                    · rw [if_pos hvt, if_pos (beq_iff_eq.mp hvt)]
                      show (st.votes.eraseP (pairP u' a')).filter (pairP u' a') =
                        pairRows u' a' none
                      rw [filter_eraseP_self, hfil]
                      rfl
                    · rw [if_neg hvt, if_neg (fun hh => hvt (beq_iff_eq.mpr hh))]
                      show (switchVotes u' a' t st.votes).filter (pairP u' a') =
                        pairRows u' a' (some t)
                      rw [switchVotes,
                        filter_modifyFirst_self (pairP u' a')
                          (fun w => { w with vote_type := t }) st.votes (fun x hx => hx),
                        hfil]
                      show [({v with vote_type := t} : Vote)] = pairRows u' a' (some t)
                      rw [show ({v with vote_type := t} : Vote) = ⟨u', a', t⟩ from by
                        cases v
                        simp_all]
                      rfl
      · rw [if_neg hpair]
        exact (votesFor_vote_answer_other st a' u' t u a
          (Bool.not_eq_true _ ▸ hpair)).trans h
  | rem u' a' =>
      simp only [applyVoteEvent, absStep]
      by_cases hpair : (u' == u && a' == a) = true
      · obtain ⟨hu, ha⟩ := Bool.and_eq_true_iff.mp hpair
        have hu' : u' = u := beq_iff_eq.mp hu
        have ha' : a' = a := beq_iff_eq.mp ha
        subst hu'; subst ha'
        rw [if_pos hpair, remove_vote]
        by_cases hz : (u' == 0) = true
        · rw [if_pos hz, if_pos hz]; exact h
        · rw [if_neg hz, if_neg hz]
          cases hv : st.votes.find? (pairP u' a') with
          | none =>
              have hfil : st.votes.filter (pairP u' a') = [] := by
                rw [find?_eq_head?_filter] at hv
                cases hf : st.votes.filter (pairP u' a') with
                | nil => rfl
                | cons w ws => rw [hf] at hv; simp at hv
              show st.votes.filter (pairP u' a') = pairRows u' a' none
              rw [hfil]
              rfl
          | some v =>
              have hsing := votesFor_singleton st u' a' v hlen hv
              have hfil : st.votes.filter (pairP u' a') = [v] := by
                rw [votesFor] at hsing; exact hsing
              show (st.votes.eraseP (pairP u' a')).filter (pairP u' a') =
                pairRows u' a' none
              rw [filter_eraseP_self, hfil]
              rfl
      · rw [if_neg hpair]
        exact (votesFor_remove_vote_other st a' u' u a
          (Bool.not_eq_true _ ▸ hpair)).trans h


/-- C1: starting from a store holding at most one vote for a (user, answer)
pair, after any sequence of `vote_answer` and `remove_vote` requests (for any
pairs) at most one Vote row exists for that pair, and its vote_type is the
run of the abstract toggle automaton `absStep` over the sequence: a valid
cast stores its vote_type when it differs from the current state (creating
or switching), clears the vote when it repeats the stored vote_type
(toggle-off), and a remove clears it — i.e. the stored vote_type is the most
recently submitted vote_type that differed from the then-current state, and
no row exists when the last effective request toggled it off or removed it. -/
theorem vote_pair_invariant (st : VoteStore) (u a : Nat) (events : List VoteEvent)
    (h : (votesFor st u a).length ≤ 1) :
    (votesFor (runVoteEvents st events) u a).length ≤ 1 ∧
    pairState (runVoteEvents st events) u a =
      absRun st.answers st.users u a (pairState st u a) events := by
  have key : ∀ evs s0, votesFor s0 u a = pairRows u a (pairState s0 u a) →
      votesFor (runVoteEvents s0 evs) u a =
        pairRows u a (absRun s0.answers s0.users u a (pairState s0 u a) evs) := by
    intro evs
    induction evs with
    | nil => intro s0 h0; exact h0
    | cons e es ih =>
        intro s0 h0
        have hstep := votesFor_step s0 u a e h0
        have hnext : votesFor (applyVoteEvent s0 e) u a =
            pairRows u a (pairState (applyVoteEvent s0 e) u a) := by
          rw [hstep, pairState_eq _ _ _ _ hstep]
        have hrun := ih (applyVoteEvent s0 e) hnext
        rw [show runVoteEvents s0 (e :: es) = runVoteEvents (applyVoteEvent s0 e) es from rfl]
        rw [hrun, pairState_eq _ _ _ _ hstep,
          (applyVoteEvent_frame s0 e).1, (applyVoteEvent_frame s0 e).2]
        rfl
  have hfin := key events st (votesFor_pairRows st u a h)
  refine ⟨?_, pairState_eq _ _ _ _ hfin⟩
  rw [hfin]
  cases absRun st.answers st.users u a (pairState st u a) events <;> simp [pairRows]

/-- Witness for C1: user 5 casts up then down on answer 1, user 6 casts and
removes a down vote; pair (5, 1) keeps at most one row and ends in the
abstract state computed by the automaton. -/
theorem vote_pair_invariant_witness :
    (votesFor
        (runVoteEvents ⟨[5, 6], [⟨1, 1, 2, "ans"⟩], []⟩
          [.cast 5 1 "up", .cast 5 1 "down", .cast 6 1 "down", .rem 6 1, .cast 5 1 "down"])
        5 1).length ≤ 1 ∧
    pairState
        (runVoteEvents ⟨[5, 6], [⟨1, 1, 2, "ans"⟩], []⟩
          [.cast 5 1 "up", .cast 5 1 "down", .cast 6 1 "down", .rem 6 1, .cast 5 1 "down"])
        5 1 =
      absRun [⟨1, 1, 2, "ans"⟩] [5, 6] 5 1
        (pairState ⟨[5, 6], [⟨1, 1, 2, "ans"⟩], []⟩ 5 1)
        [.cast 5 1 "up", .cast 5 1 "down", .cast 6 1 "down", .rem 6 1, .cast 5 1 "down"] :=
  vote_pair_invariant ⟨[5, 6], [⟨1, 1, 2, "ans"⟩], []⟩ 5 1
    [.cast 5 1 "up", .cast 5 1 "down", .cast 6 1 "down", .rem 6 1, .cast 5 1 "down"]
    (by decide)

end StudyBuddy
